import Mathlib

/- Shallow embedding of the azure-blob-size-checker repository: src/main.go and
   the unnamed companion file src/unnamed/part_000 (an alternative version of
   the same program that reports raw byte counts).  Go int64 arithmetic wraps
   silently on overflow, so every running int64 total is modelled as an Int
   normalised through int64wrap after each addition. -/

deriving instance DecidableEq for Except

/-- Wrap an unbounded integer into the int64 range, mirroring Go int64
    two's-complement overflow semantics. -/
def int64wrap (x : Int) : Int := (x + 2 ^ 63) % 2 ^ 64 - 2 ^ 63

/-- Error values surfaced by the Azure SDK pagers and clients; their payload is
    irrelevant to the program, so they are modelled as strings. -/
abbrev Err := String

/-- Blob metadata entry: the only field the program reads is
    blob.Properties.ContentLength, an int64 (src/main.go line 159). -/
structure BlobItem where
  contentLength : Int
  deriving Repr, DecidableEq

/-- Outcome of one pager.NextPage call on a blob listing: either the page's
    resp.Segment.BlobItems or the fetch error (src/main.go lines 153-161).
    A pager is the finite list of outcomes its successive NextPage calls
    would produce. -/
abbrev BlobPage := Except Err (List BlobItem)

/-- The paging loop of getContainerSize (src/main.go lines 153-161): for each
    page, on fetch error return (0, err) at once; otherwise fold the page's
    content lengths into totalSize with int64 addition and continue. -/
def sizeLoop (total : Int) : List BlobPage → Int × Option Err
  | [] => (total, none)
  | .error e :: _ => (0, some e)
  | .ok items :: rest =>
      sizeLoop (items.foldl (fun t b => int64wrap (t + b.contentLength)) total) rest

/-- getContainerSize (src/main.go lines 148-164): drives the blob pager to
    exhaustion summing content lengths; the pair mirrors the Go return values
    (int64, error). -/
def getContainerSize (pages : List BlobPage) : Int × Option Err :=
  sizeLoop 0 pages

/-- Decidable test that a page fetch succeeded. -/
def isOkPage : BlobPage → Bool
  | .ok _ => true
  | .error _ => false

/-- All blob items carried by the successful pages of a listing, in page
    order. -/
def okItems : List BlobPage → List BlobItem
  | [] => []
  | .ok items :: rest => items ++ okItems rest
  | .error _ :: rest => okItems rest

/-- Mathematical (unwrapped) sum of the content lengths of a list of blob
    items. -/
def itemsSum (l : List BlobItem) : Int :=
  (l.map BlobItem.contentLength).sum

namespace Part000

/-- The paging loop of getContainerSize in src/unnamed/part_000 lines 109-117,
    embedded separately from the main.go version so the two can be compared. -/
def sizeLoop (total : Int) : List BlobPage → Int × Option Err
  | [] => (total, none)
  | .error e :: _ => (0, some e)
  | .ok items :: rest =>
      sizeLoop (items.foldl (fun t b => int64wrap (t + b.contentLength)) total) rest

/-- getContainerSize of src/unnamed/part_000 lines 103-120: identical paging
    and summing logic reached through a per-container client. -/
def getContainerSize (pages : List BlobPage) : Int × Option Err :=
  sizeLoop 0 pages

end Part000

-- Container listing and the per-account aggregator ---------------------------

/-- Outcome of one pager.NextPage call on the container listing: either the
    page's ContainerItems names or the fetch error (src/main.go lines 136-144). -/
abbrev ContainerPage := Except Err (List String)

/-- Decidable test that a container-listing page fetch succeeded. -/
def isOkContainersPage : ContainerPage → Bool
  | .ok _ => true
  | .error _ => false

/-- The paging loop of listContainers (src/main.go lines 136-144): on a fetch
    error return (nil, err) at once, discarding the partial list; otherwise
    append the page's container names and continue. -/
def containersLoop (acc : List String) : List ContainerPage → Except Err (List String)
  | [] => .ok acc
  | .error e :: _ => .error e
  | .ok names :: rest => containersLoop (acc ++ names) rest

/-- listContainers (src/main.go lines 132-146). -/
def listContainers (pages : List ContainerPage) : Except Err (List String) :=
  containersLoop [] pages

/-- ContainerSize (src/main.go lines 127-130): the record a successful worker
    sends on the results channel. -/
structure ContainerSize where
  name : String
  size : Int
  deriving Repr, DecidableEq

/-- One container worker (src/main.go lines 100-108): runs getContainerSize
    and sends a ContainerSize on success; on error it logs and sends nothing. -/
def runWorker (blobPages : List BlobPage) (name : String) : Option ContainerSize :=
  match getContainerSize blobPages with
  | (size, none) => some ⟨name, size⟩
  | (_, some _) => none

/-- The multiset of results the workers deliver to the channel, written in
    container order; the channel may deliver them in any permutation of this
    list. -/
def workerResults (blobPagesFor : String → List BlobPage)
    (containers : List String) : List ContainerSize :=
  containers.filterMap (fun c => runWorker (blobPagesFor c) c)

/-- Mathematical (unwrapped) sum of the sizes of a list of worker results. -/
def sizesSum (rs : List ContainerSize) : Int :=
  (rs.map ContainerSize.size).sum

/-- The aggregation loop over the results channel (src/main.go lines 116-121):
    totalSize += result.Size with int64 addition, in channel-arrival order. -/
def totalOf (rs : List ContainerSize) : Int :=
  rs.foldl (fun t r => int64wrap (t + r.size)) 0

/-- Observable outcome of processAccount for one account: either the early
    return after a container-listing error (src/main.go lines 90-93), which
    prints no breakdown and no total, or the full report with the collected
    breakdown in arrival order and the final totalSize. -/
inductive AccountResult where
  | aborted (e : Err)
  | report (breakdown : List ContainerSize) (total : Int)
  deriving Repr, DecidableEq

/-- processAccount (src/main.go lines 80-125).  The schedule argument models
    the nondeterministic channel-arrival order of worker results: the code
    collects some reordering of the multiset of successful results; theorems
    constrain schedule to permutations.  Client creation (lines 82-86) has no
    input-dependent failure and is elided. -/
def processAccount (containerPages : List ContainerPage)
    (blobPagesFor : String → List BlobPage)
    (schedule : List ContainerSize → List ContainerSize) : AccountResult :=
  match listContainers containerPages with
  | .error e => .aborted e
  | .ok containers =>
      let collected := schedule (workerResults blobPagesFor containers)
      .report collected (totalOf collected)

/-- Number of goroutines the worker loop launches (src/main.go lines 98-109):
    one per listed container, and none at all when listContainers failed,
    because processAccount returns before reaching the loop. -/
def launchedWorkers (containerPages : List ContainerPage) : Nat :=
  match listContainers containerPages with
  | .error _ => 0
  | .ok cs => cs.length

/-- The account total printed for an account, if one is printed at all:
    processAccount prints the total line only on the non-aborted path
    (src/main.go lines 123-124). -/
def reportedTotal : AccountResult → Option Int
  | .aborted _ => none
  | .report _ t => some t

-- Output rendering -----------------------------------------------------------

/-- Rounding of 100 * bytes / 2^30 to the nearest integer, ties to even.
    This models the fmt %.2f rendering (src/main.go lines 119 and 124) of
    bytesToGB (src/main.go lines 166-168): binary64 division of an integer
    below 2^53 by the power of two 1024^3 is exact, so for the byte counts the
    claims exercise the float value printed is exactly bytes / 1024^3, and the
    Go decimal formatter rounds that exact value half-to-even. -/
def centiRound (bytes : Int) : Int :=
  let num := 100 * bytes
  let den : Int := 1024 * 1024 * 1024
  let q := num.fdiv den
  let r := num.fmod den
  if 2 * r < den then q else if den < 2 * r then q + 1 else if q % 2 = 0 then q else q + 1

/-- Render a nonnegative count of hundredths as a two-decimal string. -/
def centiString (c : Int) : String :=
  toString (c / 100) ++ "." ++ (if c % 100 < 10 then "0" else "") ++ toString (c % 100)

/-- The string %.2f produces for bytesToGB applied to a byte count. -/
def formatGB2 (bytes : Int) : String :=
  let c := centiRound bytes
  if c < 0 then "-" ++ centiString (-c) else centiString c

/-- Per-container output line of src/main.go line 119. -/
def containerLine (r : ContainerSize) : String :=
  "Container: " ++ r.name ++ ", Size: " ++ formatGB2 r.size ++ " GB"

/-- Per-account total line of src/main.go line 124. -/
def totalLine (account : String) (total : Int) : String :=
  "Total size for account " ++ account ++ ": " ++ formatGB2 total ++ " GB"

namespace Part000

/-- Per-container output line of src/unnamed/part_000 line 75: the size is
    printed as a raw byte count with %d, not converted to gigabytes. -/
def containerLine (r : ContainerSize) : String :=
  "Container: " ++ r.name ++ ", Size: " ++ toString r.size ++ " bytes"

/-- Per-account total line of src/unnamed/part_000 line 79, also in raw
    bytes. -/
def totalLine (account : String) (total : Int) : String :=
  "Total size for account " ++ account ++ ": " ++ toString total ++ " bytes"

end Part000

-- Subscription selection and the run driver ----------------------------------

/-- Subscription record: the two fields main.go reads (line 67). -/
structure Subscription where
  displayName : String
  subscriptionID : String
  deriving Repr, DecidableEq

/-- selectSubscription (src/main.go lines 48-78), after the listing pages have
    been fetched: subs is the accumulated subscription list and input the
    result of the fmt.Scanf read (none when the scan failed).  The choice is
    rejected when the scan failed, choice < 1, or choice > len(subscriptions);
    otherwise the (choice-1)-indexed SubscriptionID is returned. -/
def selectSubscription (subs : List Subscription) (input : Option Int) :
    Except Err String :=
  match input with
  | none => .error "invalid choice"
  | some choice =>
      if h : 1 ≤ choice ∧ choice ≤ (subs.length : Int) then
        .ok (subs.get ⟨(choice - 1).toNat, by omega⟩).subscriptionID
      else .error "invalid choice"

/-- Split a string at every comma, keeping empty segments, exactly as Go's
    strings.Split with separator "," behaves on the character sequence. -/
def splitChars : List Char → List (List Char)
  | [] => [[]]
  | c :: cs =>
      match splitChars cs with
      | [] => if c = ',' then [[], []] else [[c]]
      | g :: gs => if c = ',' then [] :: g :: gs else (c :: g) :: gs

/-- Model of strings.Split(accounts, ",") from src/main.go line 25. -/
def splitOnComma (s : String) : List String :=
  (splitChars s.toList).map (fun cs => String.mk cs)

/-- Per-account inputs of a run: what the backend would serve for each account
    name, and the channel-arrival order of each account's worker results. -/
structure Env where
  containerPagesFor : String → List ContainerPage
  blobPagesFor : String → String → List BlobPage
  scheduleFor : String → List ContainerSize → List ContainerSize

/-- Processing of one named account within a run. -/
def processAccountEnv (env : Env) (a : String) : AccountResult :=
  processAccount (env.containerPagesFor a) (env.blobPagesFor a) (env.scheduleFor a)

/-- The sequential account loop of main (src/main.go lines 41-45): every
    account in the flag list is processed, one after another, regardless of
    how earlier accounts fared. -/
def runDriver (accounts : List String) (env : Env) : List (String × AccountResult) :=
  accounts.map (fun a => (a, processAccountEnv env a))

/-- Observable outcome of main (src/main.go lines 16-46): a fatal startup
    error, or the selected subscription together with every account's result. -/
inductive RunOutcome where
  | fatal (msg : String)
  | completed (subscriptionID : String) (results : List (String × AccountResult))
  deriving Repr, DecidableEq

/-- main (src/main.go lines 16-46): an empty -accounts flag is fatal; then the
    flag is comma-split, credentials are acquired (fatal on failure), a
    subscription is selected (fatal on failure), and each account is processed
    in order. -/
def mainRun (accountsFlag : String) (cred : Except Err Unit)
    (subs : List Subscription) (subInput : Option Int) (env : Env) : RunOutcome :=
  if accountsFlag = "" then
    .fatal "Please provide a list of accounts using the -accounts flag"
  else
    match cred with
    | .error _ => .fatal "Error obtaining credentials"
    | .ok _ =>
        match selectSubscription subs subInput with
        | .error _ => .fatal "Error selecting subscription"
        | .ok sid => .completed sid (runDriver (splitOnComma accountsFlag) env)

/-- Environment in which every listing is empty; used to instantiate run-level
    statements on concrete inputs. -/
def trivEnv : Env :=
  { containerPagesFor := fun _ => []
    blobPagesFor := fun _ _ => []
    scheduleFor := fun _ l => l }

-- Basic wrap lemmas ----------------------------------------------------------

theorem int64wrap_add_left (x y : Int) :
    int64wrap (int64wrap x + y) = int64wrap (x + y) := by
  unfold int64wrap
  omega

theorem int64wrap_idem (x : Int) : int64wrap (int64wrap x) = int64wrap x := by
  have h := int64wrap_add_left x 0
  simpa using h

theorem int64wrap_eq_self {x : Int} (h1 : -(2 ^ 63) ≤ x) (h2 : x < 2 ^ 63) :
    int64wrap x = x := by
  unfold int64wrap
  omega

theorem int64wrap_zero : int64wrap 0 = 0 := by
  unfold int64wrap
  omega

/-- A fold of wrapped additions equals the wrap of the mathematical sum,
    whenever the starting accumulator is already in int64 range. -/
theorem foldl_wrapAdd {α : Type} (f : α → Int) (l : List α) (t : Int)
    (ht : int64wrap t = t) :
    l.foldl (fun a x => int64wrap (a + f x)) t = int64wrap (t + (l.map f).sum) := by
  induction l generalizing t with
  | nil => simpa using ht.symm
  | cons x xs ih =>
      simp only [List.foldl_cons, List.map_cons, List.sum_cons]
      rw [ih (int64wrap (t + f x)) (int64wrap_idem _), int64wrap_add_left]
      ring_nf

-- Helper lemmas about the loops ----------------------------------------------

theorem totalOf_eq_wrap (rs : List ContainerSize) :
    totalOf rs = int64wrap (sizesSum rs) := by
  unfold totalOf sizesSum
  have h := foldl_wrapAdd (fun r : ContainerSize => r.size) rs 0 int64wrap_zero
  have h2 : int64wrap (0 + (rs.map fun r : ContainerSize => r.size).sum)
      = int64wrap ((rs.map ContainerSize.size).sum) := by rw [zero_add]
  exact h.trans h2

theorem sizeLoop_all_ok (pages : List BlobPage) :
    ∀ t : Int, pages.all isOkPage = true → int64wrap t = t →
      sizeLoop t pages = (int64wrap (t + itemsSum (okItems pages)), none) := by
  induction pages with
  | nil =>
      intro t _ ht
      simp [sizeLoop, okItems, itemsSum, ht]
  | cons p rest ih =>
      intro t hall ht
      cases p with
      | error e => simp [isOkPage] at hall
      | ok items =>
          simp only [List.all_cons, isOkPage, Bool.true_and] at hall
          have hfold : items.foldl (fun a b => int64wrap (a + b.contentLength)) t
              = int64wrap (t + itemsSum items) :=
            foldl_wrapAdd BlobItem.contentLength items t ht
          have hrec := ih (int64wrap (t + itemsSum items)) hall (int64wrap_idem _)
          rw [show sizeLoop t (Except.ok items :: rest)
              = sizeLoop (items.foldl (fun a b => int64wrap (a + b.contentLength)) t) rest
              from rfl,
            hfold, hrec, int64wrap_add_left]
          simp [okItems, itemsSum, add_assoc]

theorem getContainerSize_all_ok (pages : List BlobPage)
    (h : pages.all isOkPage = true) :
    getContainerSize pages = (int64wrap (itemsSum (okItems pages)), none) := by
  have hl := sizeLoop_all_ok pages 0 h int64wrap_zero
  simpa [getContainerSize] using hl

theorem sizeLoop_err (pre : List BlobPage) :
    ∀ (t : Int) (e : Err) (post : List BlobPage), pre.all isOkPage = true →
      sizeLoop t (pre ++ .error e :: post) = (0, some e) := by
  induction pre with
  | nil => intro t e post _; rfl
  | cons p ps ih =>
      intro t e post hall
      cases p with
      | error f => simp [isOkPage] at hall
      | ok items =>
          simp only [List.all_cons, isOkPage, Bool.true_and] at hall
          exact ih _ e post hall

theorem containersLoop_err (pre : List ContainerPage) :
    ∀ (acc : List String) (e : Err) (post : List ContainerPage),
      pre.all isOkContainersPage = true →
      containersLoop acc (pre ++ .error e :: post) = .error e := by
  induction pre with
  | nil => intro acc e post _; rfl
  | cons p ps ih =>
      intro acc e post hall
      cases p with
      | error f => simp [isOkContainersPage] at hall
      | ok names =>
          simp only [List.all_cons, isOkContainersPage, Bool.true_and] at hall
          exact ih _ e post hall

theorem part000_sizeLoop_eq (pages : List BlobPage) :
    ∀ t : Int, Part000.sizeLoop t pages = sizeLoop t pages := by
  induction pages with
  | nil => intro t; rfl
  | cons p rest ih =>
      intro t
      cases p with
      | error e => rfl
      | ok items => exact ih _

-- Claim theorems --------------------------------------------------------------

/-- C1 counterexample: the claim asserts that getContainerSize returns the
    exact arithmetic sum for every sequence of non-negative int64 content
    lengths, but Go int64 addition wraps: two blobs of 2^62 bytes each sum to
    2^63, which overflows to -2^63, not the arithmetic sum 2^63. -/
theorem getContainerSize_overflow_cex :
    getContainerSize [Except.ok [⟨4611686018427387904⟩, ⟨4611686018427387904⟩]]
        = (-9223372036854775808, none)
      ∧ (4611686018427387904 + 4611686018427387904 : Int) = 9223372036854775808
      ∧ ((-9223372036854775808 : Int) ≠ 9223372036854775808) := by
  decide

/-- C1 (amended): for blob-listing pages that all succeed and carry
    non-negative content lengths whose arithmetic total fits in int64
    (is below 2^63), getContainerSize returns exactly that arithmetic total
    with no error, and the result depends only on the multiset of content
    lengths, not on how they are split into pages (page-boundary invariance,
    which holds even without the overflow bound). -/
theorem getContainerSize_sum_spec (pages pages2 : List BlobPage)
    (h1 : pages.all isOkPage = true) (h2 : pages2.all isOkPage = true)
    (hperm : ((okItems pages).map BlobItem.contentLength).Perm
      ((okItems pages2).map BlobItem.contentLength))
    (hnn : ∀ b ∈ okItems pages, 0 ≤ b.contentLength)
    (hbound : itemsSum (okItems pages) < 2 ^ 63) :
    getContainerSize pages = (itemsSum (okItems pages), none)
      ∧ getContainerSize pages2 = getContainerSize pages := by
  have e1 := getContainerSize_all_ok pages h1
  have e2 := getContainerSize_all_ok pages2 h2
  have hs : itemsSum (okItems pages2) = itemsSum (okItems pages) := by
    unfold itemsSum
    exact hperm.symm.sum_eq
  have hnn0 : 0 ≤ itemsSum (okItems pages) := by
    unfold itemsSum
    refine List.sum_nonneg ?_
    intro x hx
    obtain ⟨b, hb, rfl⟩ := List.mem_map.mp hx
    exact hnn b hb
  have hwrap : int64wrap (itemsSum (okItems pages)) = itemsSum (okItems pages) :=
    int64wrap_eq_self (by omega) hbound
  constructor
  · rw [e1, hwrap]
  · rw [e1, e2, hs]

/-- C1 witness: a concrete two-page listing summing to 7, equal to the result
    on a one-page reordering of the same lengths. -/
theorem getContainerSize_sum_spec_witness :
    getContainerSize [Except.ok [⟨3⟩], Except.ok [⟨4⟩]] = (7, none)
      ∧ getContainerSize [Except.ok [⟨4⟩, ⟨3⟩]]
        = getContainerSize [Except.ok [⟨3⟩], Except.ok [⟨4⟩]] := by
  have h := getContainerSize_sum_spec [Except.ok [⟨3⟩], Except.ok [⟨4⟩]]
    [Except.ok [⟨4⟩, ⟨3⟩]] (by decide) (by decide) (by decide) (by decide) (by decide)
  exact ⟨h.1.trans (by decide), h.2⟩

/-- C3: if any page fetch fails, getContainerSize returns the failing page's
    error together with size 0, discarding whatever partial sum the earlier
    (successful) pages had accumulated. -/
theorem getContainerSize_pageFailure_spec (pre : List BlobPage) (e : Err)
    (post : List BlobPage) (hpre : pre.all isOkPage = true) :
    getContainerSize (pre ++ .error e :: post) = (0, some e) :=
  sizeLoop_err pre 0 e post hpre

/-- C3 witness: a failing second page wipes out the 5 bytes accumulated on the
    first page. -/
theorem getContainerSize_pageFailure_spec_witness :
    getContainerSize [Except.ok [⟨5⟩], Except.error "boom"] = (0, some "boom") :=
  getContainerSize_pageFailure_spec [Except.ok [⟨5⟩]] "boom" [] (by decide)

/-- C6: the aggregator's reduction of worker results is invariant under
    permutation of the collection (completion) order, so the account total is
    deterministic regardless of which workers finish first. -/
theorem totalOf_perm_invariant (l1 l2 : List ContainerSize) (h : l1.Perm l2) :
    totalOf l1 = totalOf l2 := by
  rw [totalOf_eq_wrap, totalOf_eq_wrap]
  have hs : sizesSum l1 = sizesSum l2 := by
    unfold sizesSum
    exact (h.map ContainerSize.size).sum_eq
  rw [hs]

/-- C6 witness: two completion orders of the same three results give the same
    total. -/
theorem totalOf_perm_invariant_witness :
    totalOf [⟨"a", 1⟩, ⟨"b", 2⟩, ⟨"c", 4⟩] = 7
      ∧ totalOf [⟨"a", 1⟩, ⟨"b", 2⟩, ⟨"c", 4⟩]
        = totalOf [⟨"c", 4⟩, ⟨"a", 1⟩, ⟨"b", 2⟩] :=
  ⟨by decide, totalOf_perm_invariant _ _ (by decide)⟩

/-- C9: the getContainerSize of src/main.go and the getContainerSize of
    src/unnamed/part_000 compute identical results on every page sequence; in
    particular, on a listing whose first failure is page error e, both return
    size 0 with error e. -/
theorem getContainerSize_part000_equiv (pages : List BlobPage)
    (pre : List BlobPage) (e : Err) (post : List BlobPage)
    (hpre : pre.all isOkPage = true) :
    Part000.getContainerSize pages = getContainerSize pages
      ∧ Part000.getContainerSize (pre ++ .error e :: post) = (0, some e)
      ∧ getContainerSize (pre ++ .error e :: post) = (0, some e) := by
  have heq : ∀ ps : List BlobPage, Part000.getContainerSize ps = getContainerSize ps :=
    fun ps => part000_sizeLoop_eq ps 0
  have herr : getContainerSize (pre ++ .error e :: post) = (0, some e) :=
    sizeLoop_err pre 0 e post hpre
  exact ⟨heq pages, (heq _).trans herr, herr⟩

/-- C9 witness: both versions agree on a concrete mixed listing and both
    report (0, boom) for it. -/
theorem getContainerSize_part000_equiv_witness :
    Part000.getContainerSize [Except.ok [⟨5⟩], Except.error "boom"]
        = getContainerSize [Except.ok [⟨5⟩], Except.error "boom"]
      ∧ Part000.getContainerSize [Except.ok [⟨5⟩], Except.error "boom"]
        = (0, some "boom") := by
  have h := getContainerSize_part000_equiv [Except.ok [⟨5⟩], Except.error "boom"]
    [Except.ok [⟨5⟩]] "boom" [] (by decide)
  exact ⟨h.1, h.2.1⟩

/-- C2 counterexample: the claim asserts the reported total equals the sum of
    the succeeded containers' sizes, but totalSize is accumulated with int64
    addition: two containers of 2^62 bytes each produce a reported total of
    -2^63 instead of the sum 2^63. -/
theorem processAccount_total_overflow_cex :
    processAccount [Except.ok ["a", "b"]]
        (fun _ => [Except.ok [⟨4611686018427387904⟩]]) (fun l => l)
        = .report [⟨"a", 4611686018427387904⟩, ⟨"b", 4611686018427387904⟩]
            (-9223372036854775808)
      ∧ (4611686018427387904 + 4611686018427387904 : Int) = 9223372036854775808
      ∧ ((-9223372036854775808 : Int) ≠ 9223372036854775808) := by
  decide

/-- C2 (amended): when container listing succeeds and the arithmetic sum of
    the succeeded workers' sizes fits in int64, the reported total is exactly
    that sum, for every channel-arrival order; a container whose calculator
    failed is dropped by its worker and so contributes neither an entry in the
    breakdown nor anything to the total; zero containers yield total 0, an
    empty breakdown, and no launched workers. -/
theorem processAccount_total_spec (containerPages : List ContainerPage)
    (blobPagesFor : String → List BlobPage)
    (schedule : List ContainerSize → List ContainerSize)
    (containers : List String)
    (hlist : listContainers containerPages = .ok containers)
    (hsch : ∀ l, (schedule l).Perm l)
    (hlo : -(2 ^ 63) ≤ sizesSum (workerResults blobPagesFor containers))
    (hhi : sizesSum (workerResults blobPagesFor containers) < 2 ^ 63) :
    processAccount containerPages blobPagesFor schedule
        = .report (schedule (workerResults blobPagesFor containers))
            (sizesSum (workerResults blobPagesFor containers))
      ∧ (∀ c ∈ containers, ∀ e, (getContainerSize (blobPagesFor c)).2 = some e →
          runWorker (blobPagesFor c) c = none)
      ∧ (containers = [] →
          processAccount containerPages blobPagesFor schedule = .report [] 0
            ∧ launchedWorkers containerPages = 0) := by
  have htot : totalOf (schedule (workerResults blobPagesFor containers))
      = sizesSum (workerResults blobPagesFor containers) := by
    rw [totalOf_eq_wrap]
    have hs : sizesSum (schedule (workerResults blobPagesFor containers))
        = sizesSum (workerResults blobPagesFor containers) := by
      unfold sizesSum
      exact ((hsch _).map ContainerSize.size).sum_eq
    rw [hs]
    exact int64wrap_eq_self hlo hhi
  refine ⟨?_, ?_, ?_⟩
  · unfold processAccount
    rw [hlist]
    show AccountResult.report (schedule (workerResults blobPagesFor containers))
        (totalOf (schedule (workerResults blobPagesFor containers)))
      = AccountResult.report (schedule (workerResults blobPagesFor containers))
          (sizesSum (workerResults blobPagesFor containers))
    rw [htot]
  · intro c _ e he
    unfold runWorker
    rcases hg : getContainerSize (blobPagesFor c) with ⟨a, b⟩
    rw [hg] at he
    simp only at he
    rw [he]
  · intro hc
    subst hc
    have hws : workerResults blobPagesFor [] = [] := rfl
    have hnil : schedule [] = [] := (hsch []).eq_nil
    constructor
    · unfold processAccount
      rw [hlist]
      show AccountResult.report (schedule (workerResults blobPagesFor []))
          (totalOf (schedule (workerResults blobPagesFor [])))
        = AccountResult.report [] 0
      rw [hws, hnil]
      rfl
    · unfold launchedWorkers
      rw [hlist]
      rfl

/-- C2 witness: container a succeeds with 5 bytes, container b fails, so the
    breakdown holds only a and the total is 5; the failing container emits no
    result. -/
theorem processAccount_total_spec_witness :
    processAccount [Except.ok ["a", "b"]]
        (fun c => if c = "a" then [Except.ok [⟨5⟩]] else [Except.error "x"])
        (fun l => l)
        = .report [⟨"a", 5⟩] 5
      ∧ runWorker [Except.error "x"] "b" = none := by
  have h := processAccount_total_spec [Except.ok ["a", "b"]]
    (fun c => if c = "a" then [Except.ok [⟨5⟩]] else [Except.error "x"])
    (fun l => l) ["a", "b"] (by decide) (fun l => List.Perm.refl l)
    (by decide) (by decide)
  refine ⟨h.1.trans (by decide), ?_⟩
  have hb := h.2.1 "b" (by decide) "x" (by decide)
  exact hb

/-- C4 counterexample: the claim asserts that after a container-listing
    failure an account total of 0.00 GB is reported, but processAccount
    returns before the total line (src/main.go line 92), so no total is
    reported at all for that account. -/
theorem listContainers_failure_total_cex :
    reportedTotal (processAccount [Except.error "boom"] (fun _ => []) (fun l => l))
        = none
      ∧ (none : Option Int) ≠ some 0 := by
  decide

/-- C4 (amended): when some page of the container listing fails, processAccount
    aborts with that page's error before launching any worker: no partial
    container list is used, no ContainerSize results are produced, no account
    total is reported for that account, and the run driver still processes
    every account in the input list, so the run continues with the next
    account. -/
theorem listContainers_failure_aborts_spec (pre : List ContainerPage) (e : Err)
    (post : List ContainerPage) (blobPagesFor : String → List BlobPage)
    (schedule : List ContainerSize → List ContainerSize)
    (hpre : pre.all isOkContainersPage = true) :
    processAccount (pre ++ .error e :: post) blobPagesFor schedule = .aborted e
      ∧ reportedTotal (processAccount (pre ++ .error e :: post) blobPagesFor schedule)
        = none
      ∧ launchedWorkers (pre ++ .error e :: post) = 0
      ∧ (∀ env accounts, (runDriver accounts env).length = accounts.length
          ∧ ∀ a ∈ accounts, (a, processAccountEnv env a) ∈ runDriver accounts env) := by
  have hl : listContainers (pre ++ .error e :: post) = .error e :=
    containersLoop_err pre [] e post hpre
  have habort : processAccount (pre ++ .error e :: post) blobPagesFor schedule
      = .aborted e := by
    unfold processAccount
    rw [hl]
  refine ⟨habort, by rw [habort]; rfl, ?_, ?_⟩
  · unfold launchedWorkers
    rw [hl]
  · intro env accounts
    constructor
    · exact List.length_map accounts _
    · intro a ha
      exact List.mem_map_of_mem (fun a => (a, processAccountEnv env a)) ha

/-- C4 witness: listing of an account fails on the second page after one good
    page naming container x; the account is aborted, nothing is reported, no
    worker runs, and a two-account run still has entries for both accounts. -/
theorem listContainers_failure_aborts_spec_witness :
    processAccount [Except.ok ["x"], Except.error "boom"] (fun _ => []) (fun l => l)
        = .aborted "boom"
      ∧ launchedWorkers [Except.ok ["x"], Except.error "boom"] = 0
      ∧ (runDriver ["p", "q"] trivEnv).length = 2 := by
  have h := listContainers_failure_aborts_spec [Except.ok ["x"]] "boom" []
    (fun _ => []) (fun l => l) (by decide)
  exact ⟨h.1, h.2.2.1, (h.2.2.2 trivEnv ["p", "q"]).1⟩

/-- C7 counterexample: the claim asserts every per-container line and every
    total line renders the size in gigabytes with two decimals, but the
    processAccount of src/unnamed/part_000 (cited lines 73-79) prints raw byte
    counts with %d: one gibibyte is printed as 1073741824 bytes, not as 1.00. -/
theorem part000_bytes_line_cex :
    Part000.containerLine ⟨"a", 1073741824⟩
        = "Container: a, Size: 1073741824 bytes"
      ∧ Part000.containerLine ⟨"a", 1073741824⟩ ≠ "Container: a, Size: 1.00 GB"
      ∧ Part000.totalLine "acct" 1073741824
        = "Total size for account acct: 1073741824 bytes" := by
  decide

/-- C7 (amended): in src/main.go every per-container line and the per-account
    total line render the size in gigabytes with two-decimal precision,
    computed as bytes divided by 1024^3, with 1073741824 bytes rendering as
    1.00, 1 byte as 0.00 and 1610612736 bytes as 1.50; the companion
    src/unnamed/part_000 instead prints the same sizes as raw byte counts. -/
theorem gb_rendering_spec :
    formatGB2 1073741824 = "1.00"
      ∧ formatGB2 1 = "0.00"
      ∧ formatGB2 1610612736 = "1.50"
      ∧ (∀ r : ContainerSize, containerLine r
          = "Container: " ++ r.name ++ ", Size: " ++ formatGB2 r.size ++ " GB")
      ∧ (∀ (a : String) (t : Int), totalLine a t
          = "Total size for account " ++ a ++ ": " ++ formatGB2 t ++ " GB")
      ∧ containerLine ⟨"a", 1610612736⟩ = "Container: a, Size: 1.50 GB"
      ∧ totalLine "acct" 1073741824 = "Total size for account acct: 1.00 GB"
      ∧ (∀ r : ContainerSize, Part000.containerLine r
          = "Container: " ++ r.name ++ ", Size: " ++ toString r.size ++ " bytes") :=
  ⟨by decide, by decide, by decide, fun r => rfl, fun a t => rfl, by decide, by decide,
    fun r => rfl⟩

/-- C8: selectSubscription returns the SubscriptionID at index choice-1 exactly
    when the scanned input is an integer choice with 1 <= choice <= number of
    subscriptions; a failed scan or an out-of-range choice yields an error, and
    a selection error makes the whole run fatal before any account is
    processed. -/
theorem selectSubscription_spec (subs : List Subscription) (input : Option Int) :
    (∀ choice, input = some choice →
      ∀ (h1 : 1 ≤ choice) (h2 : choice ≤ (subs.length : Int)),
        selectSubscription subs input
          = .ok (subs.get ⟨(choice - 1).toNat, by omega⟩).subscriptionID)
      ∧ (∀ choice, input = some choice → choice < 1 ∨ (subs.length : Int) < choice →
          selectSubscription subs input = .error "invalid choice")
      ∧ (input = none → selectSubscription subs input = .error "invalid choice")
      ∧ (∀ (flag : String) (env : Env) (e : Err), flag ≠ "" →
          selectSubscription subs input = .error e →
          mainRun flag (.ok ()) subs input env = .fatal "Error selecting subscription") := by
  refine ⟨?_, ?_, ?_, ?_⟩
  · intro choice hc h1 h2
    subst hc
    have hred : selectSubscription subs (some choice)
        = if h : 1 ≤ choice ∧ choice ≤ (subs.length : Int) then
            Except.ok (subs.get ⟨(choice - 1).toNat, by omega⟩).subscriptionID
          else Except.error "invalid choice" := rfl
    rw [hred, dif_pos ⟨h1, h2⟩]
  · intro choice hc hrange
    subst hc
    have hred : selectSubscription subs (some choice)
        = if h : 1 ≤ choice ∧ choice ≤ (subs.length : Int) then
            Except.ok (subs.get ⟨(choice - 1).toNat, by omega⟩).subscriptionID
          else Except.error "invalid choice" := rfl
    have hneg : ¬(1 ≤ choice ∧ choice ≤ (subs.length : Int)) := by
      intro hcon
      rcases hrange with h | h
      · omega
      · omega
    rw [hred, dif_neg hneg]
  · intro hc
    subst hc
    rfl
  · intro flag env e hflag herr
    unfold mainRun
    rw [if_neg hflag]
    show (match selectSubscription subs input with
      | .error _ => RunOutcome.fatal "Error selecting subscription"
      | .ok sid => RunOutcome.completed sid (runDriver (splitOnComma flag) env)) = _
    rw [herr]

/-- C8 witness: with two listed subscriptions, input 2 selects the second ID,
    input 3 and a failed scan are rejected, and a failed scan makes a run with
    a nonempty account flag fatal. -/
theorem selectSubscription_spec_witness :
    selectSubscription [⟨"d1", "i1"⟩, ⟨"d2", "i2"⟩] (some 2) = .ok "i2"
      ∧ selectSubscription [⟨"d1", "i1"⟩, ⟨"d2", "i2"⟩] (some 3)
        = .error "invalid choice"
      ∧ selectSubscription [⟨"d1", "i1"⟩, ⟨"d2", "i2"⟩] none = .error "invalid choice"
      ∧ mainRun "a" (.ok ()) [⟨"d1", "i1"⟩, ⟨"d2", "i2"⟩] none trivEnv
        = .fatal "Error selecting subscription" := by
  refine ⟨?_, ?_, ?_, ?_⟩
  · have h := (selectSubscription_spec [⟨"d1", "i1"⟩, ⟨"d2", "i2"⟩] (some 2)).1
      2 rfl (by decide) (by decide)
    exact h.trans (by decide)
  · exact (selectSubscription_spec [⟨"d1", "i1"⟩, ⟨"d2", "i2"⟩] (some 3)).2.1
      3 rfl (by decide)
  · exact (selectSubscription_spec [⟨"d1", "i1"⟩, ⟨"d2", "i2"⟩] none).2.2.1 rfl
  · exact (selectSubscription_spec [⟨"d1", "i1"⟩, ⟨"d2", "i2"⟩] none).2.2.2
      "a" trivEnv "invalid choice" (by decide)
      ((selectSubscription_spec [⟨"d1", "i1"⟩, ⟨"d2", "i2"⟩] none).2.2.1 rfl)

/-- C10: a nonempty -accounts flag is comma-split with empty segments
    preserved, and every resulting name, empty ones included, is processed as
    an account by the sequential driver; only the entirely empty flag is a
    fatal startup error. -/
theorem accounts_split_spec (flag : String) (cred : Except Err Unit)
    (subs : List Subscription) (input : Option Int) (env : Env) (sid : String)
    (hflag : flag ≠ "") (hcred : cred = Except.ok ())
    (hsel : selectSubscription subs input = Except.ok sid) :
    mainRun flag cred subs input env
        = .completed sid ((splitOnComma flag).map (fun a => (a, processAccountEnv env a)))
      ∧ mainRun "" cred subs input env
        = .fatal "Please provide a list of accounts using the -accounts flag"
      ∧ splitOnComma "a," = ["a", ""]
      ∧ splitOnComma "a,,b" = ["a", "", "b"] := by
  subst hcred
  refine ⟨?_, by simp [mainRun], by decide, by decide⟩
  unfold mainRun
  rw [if_neg hflag]
  show (match selectSubscription subs input with
    | .error _ => RunOutcome.fatal "Error selecting subscription"
    | .ok sid => RunOutcome.completed sid (runDriver (splitOnComma flag) env)) = _
  rw [hsel]
  rfl

/-- C10 witness: the flag value with a trailing comma yields accounts a and
    the empty string, and both are processed. -/
theorem accounts_split_spec_witness :
    mainRun "a," (Except.ok ()) [⟨"d", "i"⟩] (some 1) trivEnv
      = .completed "i" [("a", .report [] 0), ("", .report [] 0)] := by
  have h := (accounts_split_spec "a," (Except.ok ()) [⟨"d", "i"⟩] (some 1) trivEnv "i"
    (by decide) rfl (by decide)).1
  exact h.trans (by decide)
